import Mathlib

/-!
Verification of the streaming training-progress pipeline of this repository.

The embedded code is the `TrainingPage` component: its `TrainingEvent` union,
the `processEvent` reducer, the record decoding loop inside
`startStreamingRun` (buffer accumulation, blank-line record boundaries,
`data:` field filtering, malformed-payload drop), the end-of-stream epilogue,
and the derived `cappedCompleted` / `progressPercent` quantities.

Numeric payload fields (rmse, mae, timestamps-as-strings, ...) are opaque to
every property considered here; they are embedded as exact rationals.  The
platform JSON decoder is an uninterpreted parameter `decode`; a `none` result
stands for a `JSON.parse` exception, which the source catches and discards.
-/

/-- Per-fold metric payload of a `fold` event (source: the `fold` variant of
`TrainingEvent`). -/
structure FoldData where
  fold : Nat
  total_folds : Nat
  train_start : String
  train_end : String
  test_start : String
  test_end : String
  rmse : Rat
  mae : Rat
  mape : Option Rat
deriving DecidableEq

/-- One walk-forward fold entry of a model result (source: `useTraining.ts`,
`walk_forward` element type). -/
structure WalkForwardFold where
  fold : Nat
  train_start : String
  train_end : String
  test_start : String
  test_end : String
  rmse : Rat
  mae : Rat
  mape : Option Rat
deriving DecidableEq

/-- Result of one trained model (source: `useTraining.ts`,
`TrainingModelResult`). -/
structure TrainingModelResult where
  model_name : String
  metrics_overall : List (String × Rat)
  walk_forward : List WalkForwardFold
  artifact_path : Option String
  training_time_seconds : Rat
deriving DecidableEq

/-- Final results payload of a run (source: `useTraining.ts`,
`TrainingRunResponse`). -/
structure TrainingRunResponse where
  instrument_token : Int
  interval : String
  forecast_horizon : Nat
  models : List TrainingModelResult
deriving DecidableEq

/-- The tagged union of training events (source: the `TrainingEvent` type at
the top of the training page). -/
inductive TrainingEvent where
  | start (models : List String) (total_folds : Nat)
  | model_start (model : String) (total_folds : Nat)
  | model_skipped (model : String) (reason : String)
  | fold (model : String) (data : FoldData)
  | model_complete (model : String) (metrics : List (String × Rat))
  | complete (results : TrainingRunResponse)
  | error (message : String)
deriving DecidableEq

/-- The run state: exactly the React state cells of `TrainingPage` that the
streaming pipeline mutates (`isRunning`, `statusMessage`, `errorMessage`,
`progressTotal`, `progressCompleted`, `currentModel`, `foldEvents`,
`results`). -/
structure RunState where
  isRunning : Bool
  statusMessage : Option String
  errorMessage : Option String
  progressTotal : Nat
  progressCompleted : Nat
  currentModel : Option String
  foldEvents : List TrainingEvent
  results : Option TrainingRunResponse
deriving DecidableEq

/-- JavaScript `s.replace("_", " ")`: replace the first underscore only. -/
def replaceFirstUnderscoreAux : List Char → List Char
  | [] => []
  | c :: rest => if c = '_' then ' ' :: rest else c :: replaceFirstUnderscoreAux rest

/-- String wrapper for `replaceFirstUnderscoreAux`. -/
def replaceFirstUnderscore (s : String) : String :=
  ⟨replaceFirstUnderscoreAux s.data⟩

/-- The event reducer (source: `processEvent`, lines 107-145 of the training
page).  Translates each `case` of the `switch` into a structure update. -/
def processEvent (event : TrainingEvent) (st : RunState) : RunState :=
  match event with
  | .start models total_folds =>
      { st with statusMessage := some "Initializing models...",
                progressTotal := total_folds * models.length,
                progressCompleted := 0 }
  | .model_start model _ =>
      { st with currentModel := some model,
                statusMessage := some ("Running " ++ replaceFirstUnderscore model ++ "...") }
  | .model_skipped _ _ =>
      { st with foldEvents := st.foldEvents ++ [event] }
  | .fold model data =>
      { st with foldEvents := st.foldEvents ++ [event],
                progressCompleted := st.progressCompleted + 1,
                statusMessage := some ("Model " ++ replaceFirstUnderscore model ++ " · fold "
                  ++ toString data.fold ++ "/" ++ toString data.total_folds) }
  | .model_complete model _ =>
      { st with foldEvents := st.foldEvents ++ [event],
                statusMessage := some (replaceFirstUnderscore model ++ " complete") }
  | .complete results =>
      { st with statusMessage := some "Training finished",
                results := some results,
                isRunning := false }
  | .error message =>
      { st with errorMessage := some message,
                isRunning := false,
                statusMessage := none }

/-- The state set by `onSubmit` right before `startStreamingRun` is invoked
(source lines 57-64). -/
def initialRunState : RunState :=
  { isRunning := true,
    statusMessage := some "Preparing training run...",
    errorMessage := none,
    progressTotal := 0,
    progressCompleted := 0,
    currentModel := none,
    foldEvents := [],
    results := none }

/-- Fold a sequence of events from an arbitrary state. -/
def runEventsFrom (st : RunState) (evs : List TrainingEvent) : RunState :=
  evs.foldl (fun s e => processEvent e s) st

/-- Fold a sequence of events from the submitted initial state. -/
def runEvents (evs : List TrainingEvent) : RunState :=
  runEventsFrom initialRunState evs

/-- Discriminator for `start` events. -/
def isStart : TrainingEvent → Bool
  | .start _ _ => true
  | _ => false

/-- JavaScript `Math.round (num / den)` for natural `num`, `den` with
`den > 0`: round half away from zero, here half up.  Implemented as
`⌊num / den + 1 / 2⌋` over exact arithmetic. -/
def jsRound (num den : Nat) : Nat :=
  (2 * num + den) / (2 * den)

/-- Source line 173: `progressTotal > 0 ? Math.min(progressCompleted,
progressTotal) : progressCompleted`. -/
def cappedCompleted (st : RunState) : Nat :=
  if st.progressTotal > 0 then min st.progressCompleted st.progressTotal
  else st.progressCompleted

/-- Source line 174: `progressTotal > 0 ? Math.min(100,
Math.round((cappedCompleted / progressTotal) * 100)) : 0`, with the float
expression rendered as the exact rational `cappedCompleted * 100 /
progressTotal`. -/
def progressPercent (st : RunState) : Nat :=
  if st.progressTotal > 0 then min 100 (jsRound (cappedCompleted st * 100) st.progressTotal)
  else 0

/-- Modelled from the spec: the derived-percentage formula exactly as §4.3
words it, `min(100, round(100 × min(completed_units, expected_total_units) /
expected_total_units))` when the expected total is positive, else `0`.  Kept
separate from `progressPercent` so the two can be compared. -/
def specProgressPercent (st : RunState) : Nat :=
  if st.progressTotal > 0 then
    min 100 (jsRound (100 * min st.progressCompleted st.progressTotal) st.progressTotal)
  else 0

/-- Status vocabulary of the spec for a run. -/
inductive Status where
  | idle
  | running
  | succeeded
  | failed
deriving DecidableEq

/-- Modelled from the spec: the `status` field of the spec has no stored
counterpart in the component state, so it is derived here as an observer —
`Failed` when an error message is set, `Succeeded` when results are set,
otherwise `Running`/`Idle` according to the `isRunning` flag.  This mirrors
how the rendering code distinguishes the outcomes (error banner, results
section, spinner). -/
def derivedStatus (st : RunState) : Status :=
  if st.errorMessage.isSome then .failed
  else if st.results.isSome then .succeeded
  else if st.isRunning then .running
  else .idle

/-- Find the leftmost `"\n\n"` record boundary, JavaScript
`buffer.indexOf("\n\n")` together with the two `slice` calls of source lines
152-155: returns the text before the boundary and the text after it. -/
def splitOnce : List Char → Option (List Char × List Char)
  | [] => none
  | [_] => none
  | a :: b :: rest =>
      if a = '\n' ∧ b = '\n' then some ([], rest)
      else
        match splitOnce (b :: rest) with
        | none => none
        | some (pre, post) => some (a :: pre, post)

/-- Fuel-indexed record extraction: repeatedly split off complete records,
returning them with the leftover (incomplete) buffer text.  Structural on the
fuel so that it evaluates in the kernel. -/
def extractGo : Nat → List Char → List (List Char) × List Char
  | 0, s => ([], s)
  | fuel + 1, s =>
      match splitOnce s with
      | none => ([], s)
      | some (r, rest) =>
          let p := extractGo fuel rest
          (r :: p.1, p.2)

/-- The inner `while (boundary !== -1)` loop of source lines 152-166 viewed as
a pure function: all complete records of the accumulated text, plus the
leftover buffer.  `s.length` is always enough fuel because each record
consumes at least the two boundary characters. -/
def extractAll (s : List Char) : List (List Char) × List Char :=
  extractGo s.length s

/-- Concatenation of a chunk list. -/
def joinChunks : List (List Char) → List Char
  | [] => []
  | c :: cs => c ++ joinChunks cs

/-- The Record Decoder fed one chunk at a time (source lines 147-167): each
`feed` appends the chunk to the carry-over buffer, emits every complete
record, and keeps the incomplete tail for the next call. -/
def feedAll (buf : List Char) : List (List Char) → List (List Char) × List Char
  | [] => ([], buf)
  | c :: cs =>
      let p := extractAll (buf ++ c)
      let q := feedAll p.2 cs
      (p.1 ++ q.1, q.2)

/-- ASCII whitespace recognizer for the `trim` / `\s*` operations. -/
def isSpaceChar (c : Char) : Bool :=
  c = ' ' || c = '\n' || c = '\t' || c = '\r'

/-- JavaScript `String.prototype.trim` on the character list. -/
def trimChars (s : List Char) : List Char :=
  ((s.dropWhile isSpaceChar).reverse.dropWhile isSpaceChar).reverse

/-- The `chunk.startsWith("data:")` test of source line 156. -/
def hasDataTag (s : List Char) : Bool :=
  List.isPrefixOf ("data:").data s

/-- The `chunk.replace(/^data:\s*/, "")` of source line 157, applied to a
record already known to carry the tag: drop the five tag characters and any
whitespace that follows them. -/
def stripDataTag (s : List Char) : List Char :=
  (s.drop 5).dropWhile isSpaceChar

/-- Handling of a single complete record inside the boundary loop (source
lines 154-164): trim it, discard it unless it starts with `data:`, and
otherwise decode the payload — a decoding failure (`JSON.parse` throw,
modelled as `none`) is caught and the record is dropped with no state
change. -/
def processRecord (decode : List Char → Option TrainingEvent)
    (st : RunState) (rec : List Char) : RunState :=
  let chunk := trimChars rec
  if hasDataTag chunk then
    match decode (stripDataTag chunk) with
    | some e => processEvent e st
    | none => st
  else st

/-- The chunk-reading loop of `startStreamingRun` (source lines 147-167):
accumulate each network chunk into the buffer, split off every complete
record, and process each in order. -/
def driveChunks (decode : List Char → Option TrainingEvent) :
    RunState × List Char → List (List Char) → RunState × List Char
  | p, [] => p
  | (st, buf), c :: cs =>
      let q := extractAll (buf ++ c)
      driveChunks decode (q.1.foldl (processRecord decode) st, q.2) cs

/-- The epilogue after the read loop exits at end-of-stream (source lines
169-170): clear `isRunning` and, when the status message is truthy (non-null
and non-empty), suffix it with `" (idle)"`; a falsy one becomes `null`. -/
def finishStream (st : RunState) : RunState :=
  { st with isRunning := false,
            statusMessage :=
              match st.statusMessage with
              | some m => if m = "" then none else some (m ++ " (idle)")
              | none => none }

/-- The whole of `startStreamingRun` after a successful response (source
lines 103-171), as a function of the list of network chunks: run the read
loop from the submitted state with an empty buffer, then apply the
end-of-stream epilogue. -/
def startStreamingRun (decode : List Char → Option TrainingEvent)
    (chunks : List (List Char)) : RunState :=
  finishStream (driveChunks decode (initialRunState, []) chunks).1

/-- Sample per-fold payload used by the concrete scenarios. -/
def sampleFoldData : FoldData :=
  { fold := 1, total_folds := 3,
    train_start := "2024-01-01", train_end := "2024-01-10",
    test_start := "2024-01-11", test_end := "2024-01-12",
    rmse := 1, mae := 1, mape := none }

/-- A concrete decoder instance used to exercise the driver: three fixed
payloads decode to events, everything else fails to decode. -/
def decodeDemo (s : List Char) : Option TrainingEvent :=
  if s = ("F1").data then some (.fold "random_forest" sampleFoldData)
  else if s = ("F2").data then some (.fold "random_forest" { sampleFoldData with fold := 2 })
  else if s = ("MS").data then some (.model_start "random_forest" 3)
  else none

theorem splitOnce_length : ∀ (s r rest : List Char),
    splitOnce s = some (r, rest) → s.length = r.length + 2 + rest.length := by
  intro s
  induction s with
  | nil => intro r rest h; simp [splitOnce] at h
  | cons a s ih =>
    intro r rest h
    cases s with
    | nil => simp [splitOnce] at h
    | cons b s2 =>
      rw [splitOnce] at h
      split at h
      · cases h
        simp
        omega
      · cases h2 : splitOnce (b :: s2) with
        | none => rw [h2] at h; cases h
        | some p =>
          obtain ⟨pre, post⟩ := p
          rw [h2] at h
          simp only [Option.some.injEq, Prod.mk.injEq] at h
          obtain ⟨h3, h4⟩ := h
          subst h3
          subst h4
          have hlen := ih pre post h2
          simp at hlen ⊢
          omega

theorem splitOnce_append : ∀ (s t r rest : List Char),
    splitOnce s = some (r, rest) → splitOnce (s ++ t) = some (r, rest ++ t) := by
  intro s
  induction s with
  | nil => intro t r rest h; simp [splitOnce] at h
  | cons a s ih =>
    intro t r rest h
    cases s with
    | nil => simp [splitOnce] at h
    | cons b s2 =>
      rw [splitOnce] at h
      rw [List.cons_append, List.cons_append, splitOnce]
      split at h
      case isTrue hc =>
        cases h
        rw [if_pos hc]
      case isFalse hc =>
        rw [if_neg hc]
        cases h2 : splitOnce (b :: s2) with
        | none => rw [h2] at h; cases h
        | some p =>
          obtain ⟨pre, post⟩ := p
          rw [h2] at h
          simp only [Option.some.injEq, Prod.mk.injEq] at h
          obtain ⟨h3, h4⟩ := h
          subst h3
          subst h4
          have h5 := ih t pre post h2
          rw [List.cons_append] at h5
          rw [h5]

theorem extractGo_congr : ∀ (f g : Nat) (s : List Char),
    s.length ≤ f → s.length ≤ g → extractGo f s = extractGo g s := by
  intro f
  induction f with
  | zero =>
    intro g s hf _
    have hs : s = [] := List.eq_nil_of_length_eq_zero (Nat.le_zero.mp hf)
    subst hs
    cases g <;> simp [extractGo, splitOnce]
  | succ f ih =>
    intro g s hf hg
    cases g with
    | zero =>
      have hs : s = [] := List.eq_nil_of_length_eq_zero (Nat.le_zero.mp hg)
      subst hs
      simp [extractGo, splitOnce]
    | succ g =>
      rw [extractGo, extractGo]
      cases h : splitOnce s with
      | none => rfl
      | some p =>
        obtain ⟨r, rest⟩ := p
        have hlen := splitOnce_length s r rest h
        have h1 : rest.length ≤ f := by omega
        have h2 : rest.length ≤ g := by omega
        simp only [ih g rest h1 h2]

theorem extractAll_eq_go (f : Nat) (s : List Char) (h : s.length ≤ f) :
    extractGo f s = extractAll s :=
  extractGo_congr f s.length s h (Nat.le_refl _)

theorem extractAll_of_none (s : List Char) (h : splitOnce s = none) :
    extractAll s = ([], s) := by
  cases s with
  | nil => rfl
  | cons a s2 =>
    show extractGo (a :: s2).length (a :: s2) = ([], a :: s2)
    rw [List.length_cons, extractGo, h]

theorem extractAll_of_some (s r rest : List Char) (h : splitOnce s = some (r, rest)) :
    extractAll s = (r :: (extractAll rest).1, (extractAll rest).2) := by
  have hlen := splitOnce_length s r rest h
  cases s with
  | nil => simp [splitOnce] at h
  | cons a s2 =>
    show extractGo (a :: s2).length (a :: s2) = _
    rw [List.length_cons, extractGo, h]
    have hrest : extractGo s2.length rest = extractAll rest := by
      apply extractAll_eq_go
      simp at hlen
      omega
    simp only [hrest]

theorem extract_append_bounded : ∀ (n : Nat) (s t : List Char), s.length ≤ n →
    extractAll (s ++ t)
      = ((extractAll s).1 ++ (extractAll ((extractAll s).2 ++ t)).1,
         (extractAll ((extractAll s).2 ++ t)).2) := by
  intro n
  induction n with
  | zero =>
    intro s t h
    have hs : s = [] := List.eq_nil_of_length_eq_zero (Nat.le_zero.mp h)
    subst hs
    simp [extractAll, extractGo]
  | succ n ih =>
    intro s t h
    cases hs : splitOnce s with
    | none =>
      rw [extractAll_of_none s hs]
      simp
    | some p =>
      obtain ⟨r, rest⟩ := p
      have hlen := splitOnce_length s r rest hs
      rw [extractAll_of_some s r rest hs,
          extractAll_of_some (s ++ t) r (rest ++ t) (splitOnce_append s t r rest hs),
          ih rest t (by omega)]
      simp

theorem extractAll_append (s t : List Char) :
    extractAll (s ++ t)
      = ((extractAll s).1 ++ (extractAll ((extractAll s).2 ++ t)).1,
         (extractAll ((extractAll s).2 ++ t)).2) :=
  extract_append_bounded s.length s t (Nat.le_refl _)

theorem feedAll_cons : ∀ (cs : List (List Char)) (buf c : List Char),
    feedAll buf (c :: cs) = extractAll ((buf ++ c) ++ joinChunks cs) := by
  intro cs
  induction cs with
  | nil =>
    intro buf c
    simp [feedAll, joinChunks]
  | cons c2 cs ih =>
    intro buf c
    rw [feedAll]
    simp only [ih]
    rw [joinChunks, extractAll_append (buf ++ c) (c2 ++ joinChunks cs)]
    simp [List.append_assoc]

/-- Helper: over a sequence without any `start` event, `progressCompleted`
never decreases (each step is either a no-op or a `fold` increment). -/
theorem completed_mono_of_no_start : ∀ (evs : List TrainingEvent) (st : RunState),
    (∀ x ∈ evs, isStart x = false) →
    st.progressCompleted ≤ (runEventsFrom st evs).progressCompleted := by
  intro evs
  induction evs with
  | nil => intro st _; exact Nat.le_refl _
  | cons x xs ih =>
    intro st h
    have hx : isStart x = false := h x (List.mem_cons_self _ _)
    have step : st.progressCompleted ≤ (processEvent x st).progressCompleted := by
      cases x with
      | start _ _ => simp [isStart] at hx
      | model_start _ _ => exact Nat.le_refl _
      | model_skipped _ _ => exact Nat.le_refl _
      | fold _ _ => exact Nat.le_succ _
      | model_complete _ _ => exact Nat.le_refl _
      | complete _ => exact Nat.le_refl _
      | error _ => exact Nat.le_refl _
    have rest := ih (processEvent x st) (fun y hy => h y (List.mem_cons_of_mem _ hy))
    exact Nat.le_trans step rest

/-- The event list of Scenario D: a run fails mid-flight with
`"model timed out"`. -/
def evsD : List TrainingEvent :=
  [.start ["random_forest", "xgboost"] 3,
   .model_start "random_forest" 3,
   .error "model timed out"]

/-- The state just after the `error` event of Scenario D. -/
def stateD : RunState := runEvents evsD

/-- C1 counterexample: terminal states are not absorbing in the code — a
`fold` event delivered after the `Error{"model timed out"}` of Scenario D
changes the state (it increments `progressCompleted` and appends to the
event log), so the trailing event is not a no-op. -/
theorem c1_cex :
    processEvent (.fold "random_forest" sampleFoldData) stateD ≠ stateD := by
  decide

/-- C1 (amended): after an `error` event the error message is set, the run is
marked not running and the derived status is `Failed` (and stays `Failed`),
but later events are still processed — a trailing `fold` increments
`progressCompleted` by one and appends itself to the event log instead of
being ignored. -/
theorem c1_amended (st : RunState) (msg model : String) (d : FoldData) :
    (processEvent (.error msg) st).errorMessage = some msg ∧
    (processEvent (.error msg) st).isRunning = false ∧
    derivedStatus (processEvent (.error msg) st) = Status.failed ∧
    (processEvent (.fold model d) (processEvent (.error msg) st)).errorMessage = some msg ∧
    derivedStatus (processEvent (.fold model d) (processEvent (.error msg) st)) = Status.failed ∧
    (processEvent (.fold model d) (processEvent (.error msg) st)).progressCompleted
      = (processEvent (.error msg) st).progressCompleted + 1 ∧
    (processEvent (.fold model d) (processEvent (.error msg) st)).foldEvents
      = (processEvent (.error msg) st).foldEvents ++ [.fold model d] := by
  refine ⟨rfl, rfl, ?_, rfl, ?_, rfl, rfl⟩
  · simp [derivedStatus, processEvent]
  · simp [derivedStatus, processEvent]

/-- Adversarial sequence for C2: one model, one declared fold, but two `fold`
events are reported. -/
def evsOver : List TrainingEvent :=
  [.start ["random_forest"] 1,
   .fold "random_forest" sampleFoldData,
   .fold "random_forest" { sampleFoldData with fold := 2 }]

/-- C2 counterexample: `progressCompleted` exceeds `progressTotal` when the
producer reports more folds than declared — the code increments
unconditionally and only the derived percentage clamps. -/
theorem c2_cex :
    ¬ (runEvents evsOver).progressCompleted ≤ (runEvents evsOver).progressTotal := by
  decide

/-- C2 (amended): each step changes `progressCompleted` to itself, to itself
plus one (a `fold`), or to zero (a `start` reset); across any sequence
without a `start` event it is monotonically non-decreasing.  It is not
bounded by `progressTotal` (see the counterexample). -/
theorem c2_amended (st : RunState) (e : TrainingEvent) (evs : List TrainingEvent)
    (h : ∀ x ∈ evs, isStart x = false) :
    ((processEvent e st).progressCompleted = st.progressCompleted ∨
     (processEvent e st).progressCompleted = st.progressCompleted + 1 ∨
     (processEvent e st).progressCompleted = 0) ∧
    st.progressCompleted ≤ (runEventsFrom st evs).progressCompleted := by
  refine ⟨?_, completed_mono_of_no_start evs st h⟩
  cases e <;> simp [processEvent]

/-- C2 witness: the amended theorem applied to a singleton `fold` sequence
from the initial state. -/
theorem c2_amended_witness :
    (∀ x ∈ ([TrainingEvent.fold "random_forest" sampleFoldData] : List TrainingEvent),
        isStart x = false) ∧
    (((processEvent (TrainingEvent.fold "random_forest" sampleFoldData)
          initialRunState).progressCompleted = initialRunState.progressCompleted ∨
      (processEvent (TrainingEvent.fold "random_forest" sampleFoldData)
          initialRunState).progressCompleted = initialRunState.progressCompleted + 1 ∨
      (processEvent (TrainingEvent.fold "random_forest" sampleFoldData)
          initialRunState).progressCompleted = 0) ∧
     initialRunState.progressCompleted ≤
       (runEventsFrom initialRunState
         [TrainingEvent.fold "random_forest" sampleFoldData]).progressCompleted) :=
  ⟨by decide,
   c2_amended initialRunState (TrainingEvent.fold "random_forest" sampleFoldData)
     [TrainingEvent.fold "random_forest" sampleFoldData] (by decide)⟩

/-- The single chunk of Scenario C: one `model_start` record, then the stream
closes. -/
def chunkMS : List Char := ("data: MS\n\n").data

/-- C3 counterexample: when the stream ends right after a `model_start` with
no terminal event, the code synthesizes nothing — the final state carries no
`"stream ended unexpectedly"` error and its derived status is not
`Failed`. -/
theorem c3_cex :
    (startStreamingRun decodeDemo [chunkMS]).errorMessage
        ≠ some "stream ended unexpectedly" ∧
    derivedStatus (startStreamingRun decodeDemo [chunkMS]) ≠ Status.failed := by
  decide

/-- C3 (amended): the end-of-stream epilogue never synthesizes an error — it
preserves `errorMessage` and `results` and only clears `isRunning` (suffixing
the status message) — so a stream that closes after `model_start` ends with
no error message, no results, and a non-terminal derived status. -/
theorem c3_amended :
    (∀ st : RunState,
      (finishStream st).errorMessage = st.errorMessage ∧
      (finishStream st).results = st.results ∧
      (finishStream st).isRunning = false) ∧
    (startStreamingRun decodeDemo [chunkMS]).errorMessage = none ∧
    (startStreamingRun decodeDemo [chunkMS]).results = none ∧
    derivedStatus (startStreamingRun decodeDemo [chunkMS]) = Status.idle := by
  refine ⟨fun st => ⟨rfl, rfl, rfl⟩, by decide, by decide, by decide⟩

/-- C4: the derived progress percentage computed by the code (line 174)
coincides with the formula the spec writes for it on every state, and is
between 0 and 100 for every event sequence, adversarial ones included. -/
theorem c4_percent_formula_and_bounds :
    (∀ st : RunState, progressPercent st = specProgressPercent st) ∧
    (∀ evs : List TrainingEvent,
      0 ≤ progressPercent (runEvents evs) ∧ progressPercent (runEvents evs) ≤ 100) := by
  constructor
  · intro st
    by_cases h : st.progressTotal > 0
    · simp only [progressPercent, specProgressPercent, cappedCompleted, if_pos h]
      rw [Nat.mul_comm]
    · simp only [progressPercent, specProgressPercent, if_neg h]
  · intro evs
    refine ⟨Nat.zero_le _, ?_⟩
    unfold progressPercent
    split
    · exact Nat.min_le_left _ _
    · exact Nat.zero_le _

/-- C5: the Record Decoder is chunk-boundary independent — feeding any way of
splitting a character stream into successive chunks (the leftover buffer
carried across calls and prepended to the next chunk) yields exactly the
record sequence, in order, and final buffer of feeding the concatenation as
one chunk. -/
theorem c5_chunk_boundary_independence (chunks : List (List Char)) :
    feedAll [] chunks = extractAll (joinChunks chunks) := by
  cases chunks with
  | nil => rfl
  | cons c cs =>
    rw [feedAll_cons, joinChunks]
    simp

/-- The results payload of Scenario A. -/
def resultsA : TrainingRunResponse :=
  { instrument_token := 256265, interval := "minute", forecast_horizon := 5,
    models := [] }

/-- The event list of Scenario A: two models declared with three folds each,
the first runs all three folds, the second is skipped. -/
def evsA : List TrainingEvent :=
  [.start ["random_forest", "xgboost"] 3,
   .model_start "random_forest" 3,
   .fold "random_forest" sampleFoldData,
   .fold "random_forest" { sampleFoldData with fold := 2 },
   .fold "random_forest" { sampleFoldData with fold := 3 },
   .model_complete "random_forest" [("rmse", (6 : Rat) / 5)],
   .model_start "xgboost" 3,
   .model_skipped "xgboost" "insufficient data",
   .complete resultsA]

/-- C6: folding Scenario A from the initial state succeeds with three
completed units out of the six expected (`total_folds × |models|` set once by
`start`), and a derived percentage of 50. -/
theorem c6_scenarioA :
    derivedStatus (runEvents evsA) = Status.succeeded ∧
    (runEvents evsA).progressCompleted = 3 ∧
    (runEvents evsA).progressTotal = 6 ∧
    progressPercent (runEvents evsA) = 50 := by
  decide

/-- C7: a record that carries the `data:` tag but whose payload fails to
decode is dropped with no state change, and the stream continues: a malformed
record between two valid `fold` records leaves the final state identical to
the run without it, with `progressCompleted` incremented exactly twice. -/
theorem c7_malformed_record_dropped (decode : List Char → Option TrainingEvent)
    (st : RunState) (r1 m r2 : List Char) (mo1 mo2 : String) (d1 d2 : FoldData)
    (h1 : hasDataTag (trimChars r1) = true)
    (h2 : decode (stripDataTag (trimChars r1)) = some (.fold mo1 d1))
    (h3 : hasDataTag (trimChars r2) = true)
    (h4 : decode (stripDataTag (trimChars r2)) = some (.fold mo2 d2))
    (h5 : hasDataTag (trimChars m) = true)
    (h6 : decode (stripDataTag (trimChars m)) = none) :
    List.foldl (processRecord decode) st [r1, m, r2]
      = List.foldl (processRecord decode) st [r1, r2] ∧
    (List.foldl (processRecord decode) st [r1, m, r2]).progressCompleted
      = st.progressCompleted + 2 := by
  have hm : ∀ s, processRecord decode s m = s := by
    intro s
    simp [processRecord, h5, h6]
  constructor
  · simp [List.foldl, hm]
  · have e1 : ∀ s, processRecord decode s r1 = processEvent (.fold mo1 d1) s := by
      intro s
      simp [processRecord, h1, h2]
    have e2 : ∀ s, processRecord decode s r2 = processEvent (.fold mo2 d2) s := by
      intro s
      simp [processRecord, h3, h4]
    simp only [List.foldl, hm, e1, e2]
    have hval : (processEvent (.fold mo2 d2)
          (processEvent (.fold mo1 d1) st)).progressCompleted
        = st.progressCompleted + 1 + 1 := rfl
    omega

/-- C7 witness: the malformed record `"data: not-json"` between two valid
fold records under the demo decoder. -/
theorem c7_witness :
    hasDataTag (trimChars ("data: F1").data) = true ∧
    decodeDemo (stripDataTag (trimChars ("data: F1").data))
      = some (TrainingEvent.fold "random_forest" sampleFoldData) ∧
    hasDataTag (trimChars ("data: F2").data) = true ∧
    decodeDemo (stripDataTag (trimChars ("data: F2").data))
      = some (TrainingEvent.fold "random_forest" { sampleFoldData with fold := 2 }) ∧
    hasDataTag (trimChars ("data: not-json").data) = true ∧
    decodeDemo (stripDataTag (trimChars ("data: not-json").data)) = none ∧
    (List.foldl (processRecord decodeDemo) initialRunState
        [("data: F1").data, ("data: not-json").data, ("data: F2").data]
      = List.foldl (processRecord decodeDemo) initialRunState
        [("data: F1").data, ("data: F2").data] ∧
     (List.foldl (processRecord decodeDemo) initialRunState
        [("data: F1").data, ("data: not-json").data, ("data: F2").data]).progressCompleted
      = initialRunState.progressCompleted + 2) :=
  ⟨by decide, by decide, by decide, by decide, by decide, by decide,
   c7_malformed_record_dropped decodeDemo initialRunState
     ("data: F1").data ("data: not-json").data ("data: F2").data
     "random_forest" "random_forest" sampleFoldData { sampleFoldData with fold := 2 }
     (by decide) (by decide) (by decide) (by decide) (by decide) (by decide)⟩

/-- C8 counterexample: a `fold` event arriving before any `start` is not
ignored — from the freshly submitted state it changes the state (increments
`progressCompleted` and appends to the event log). -/
theorem c8_cex :
    processEvent (.fold "random_forest" sampleFoldData) initialRunState
      ≠ initialRunState := by
  decide

/-- C8 (amended): a `fold` before any `start` is processed like any other
`fold` — `progressCompleted` becomes 1 and the event is appended to the log —
while `progressTotal` is still 0, so the derived percentage stays 0. -/
theorem c8_amended (model : String) (d : FoldData) :
    (processEvent (.fold model d) initialRunState).progressCompleted = 1 ∧
    (processEvent (.fold model d) initialRunState).foldEvents = [.fold model d] ∧
    (processEvent (.fold model d) initialRunState).progressTotal = 0 ∧
    progressPercent (processEvent (.fold model d) initialRunState) = 0 :=
  ⟨rfl, rfl, rfl, rfl⟩

/-- C9: a decoded record that does not begin (after trimming) with the
`data:` field tag is discarded: no error, and the run state after the record
sequence is exactly the state of the sequence without it — at any position in
the stream, for any decoder and any starting state. -/
theorem c9_non_data_record_ignored (decode : List Char → Option TrainingEvent)
    (st : RunState) (rs1 rs2 : List (List Char)) (r : List Char)
    (h : hasDataTag (trimChars r) = false) :
    List.foldl (processRecord decode) st (rs1 ++ r :: rs2)
      = List.foldl (processRecord decode) st (rs1 ++ rs2) := by
  rw [List.foldl_append, List.foldl_append]
  have hr : processRecord decode (List.foldl (processRecord decode) st rs1) r
      = List.foldl (processRecord decode) st rs1 := by
    simp [processRecord, h]
  rw [List.foldl_cons, hr]

/-- C9 witness: a keep-alive comment record between two data records under
the demo decoder. -/
theorem c9_witness :
    hasDataTag (trimChars (": keep-alive").data) = false ∧
    List.foldl (processRecord decodeDemo) initialRunState
        ([("data: MS").data] ++ (": keep-alive").data :: [("data: F1").data])
      = List.foldl (processRecord decodeDemo) initialRunState
        ([("data: MS").data] ++ [("data: F1").data]) :=
  ⟨by decide,
   c9_non_data_record_ignored decodeDemo initialRunState
     [("data: MS").data] [("data: F1").data] (": keep-alive").data (by decide)⟩

/-- C10: folding a `start` event is unconditional on the current state: it
always sets `progressTotal` to `total_folds × |models|` and resets
`progressCompleted` to 0 — so a second `start` mid-run overwrites the
expected total and zeroes the progress already counted. -/
theorem c10_start_unconditional (st : RunState) (models : List String)
    (total_folds : Nat) :
    (processEvent (.start models total_folds) st).progressTotal
        = total_folds * models.length ∧
    (processEvent (.start models total_folds) st).progressCompleted = 0 :=
  ⟨rfl, rfl⟩
